import Mathlib

/-!
Verification of `async_queue::AsyncQueue<T>`
(src/include/async_queue/async_queue.hpp) against its specification.

The C++ class guards every operation by one mutex, so each public
operation is atomic with respect to every other: its observable effect
is a function of the queue state at the serialization point where the
operation completes.  We embed that state and each operation's effect
at its serialization point.

* `queue_` (a `std::queue<T>`) becomes a `List T` with the head of the
  list as the front of the queue.
* `closed_` is a `Bool`, `capacity_` a `Nat` (`size_t` values in this
  program never approach 2^64, and no arithmetic overflows: the only
  arithmetic is `queue_.size() < capacity_`).
* A blocking wait whose predicate is false at the serialization point
  means the call does not complete there; such an outcome is `none`.
  A call that is woken later completes at a later state, which the
  reachability relations below capture as a step from that state.
* The timed waits (`wait_for`) either observe the predicate true within
  the timeout — then the operation proceeds exactly as the unbounded
  variant — or return `false` at expiry with the predicate still false.
  At a serialization point the predicate's value decides which of the
  two outcomes is possible with no intervening operation; the embedding
  of `try_push`/`try_pop` gives the outcome at such a point.
* The virtual hooks `on_push`, `on_pop`, `on_close` are no-ops on the
  state in the base class; each operation additionally returns the list
  of hook invocations and condition-variable notifications it performs,
  in program order, so that hook-counting claims are statable.
-/

/-- A hook invocation or condition-variable notification performed by an
operation, in program order. -/
inductive Event (T : Type) where
  | onPush (item : T)
  | onPop (item : T)
  | onClose
  | notifyOne
  | notifyAll
  deriving DecidableEq, Repr

/-- The state of one `AsyncQueue<T>` object: the buffered items (front of
the queue at the head of the list), the closed flag, and the immutable
capacity. -/
structure AsyncQueue (T : Type) where
  queue_ : List T
  closed_ : Bool
  capacity_ : Nat
  deriving DecidableEq, Repr

/-- `std::numeric_limits<size_t>::max()`, the default capacity of the
constructor `AsyncQueue(size_t capacity = ...)`. -/
def sizeTMax : Nat := 2 ^ 64 - 1

/-- The constructor `explicit AsyncQueue(size_t capacity = max)`:
an empty, open queue of the given capacity (`sizeTMax` when the C++
default argument is used). -/
def AsyncQueue.new (T : Type) (capacity : Nat) : AsyncQueue T :=
  ⟨[], false, capacity⟩

/-- `bool push(U&& item)` at its serialization point.  Returns `none`
when the call blocks there (wait predicate `size < capacity || closed`
false); otherwise the returned `bool`, the post state, and the events
(`on_push` then `notify_one`) performed. -/
def AsyncQueue.push (s : AsyncQueue T) (item : T) :
    Option (Bool × AsyncQueue T × List (Event T)) :=
  if s.closed_ = true then
    some (false, s, [])
  else if s.queue_.length < s.capacity_ ∨ s.closed_ = true then
    if s.closed_ = true then
      some (false, s, [])
    else
      some (true, { s with queue_ := s.queue_ ++ [item] },
            [Event.onPush item, Event.notifyOne])
  else
    none

/-- `bool try_push(const T& item, timeout)` at a serialization point with
no intervening operation: when the wait predicate is false the
`wait_for` expires and returns `false` without inserting; otherwise the
body is that of `push`. -/
def AsyncQueue.try_push (s : AsyncQueue T) (item : T) :
    Bool × AsyncQueue T × List (Event T) :=
  if s.closed_ = true then
    (false, s, [])
  else if ¬ (s.queue_.length < s.capacity_ ∨ s.closed_ = true) then
    (false, s, [])
  else if s.closed_ = true then
    (false, s, [])
  else
    (true, { s with queue_ := s.queue_ ++ [item] },
     [Event.onPush item, Event.notifyOne])

/-- `std::optional<T> pop()` at its serialization point.  `none` when the
call blocks (wait predicate `!queue_.empty() || closed_` false);
otherwise the returned optional, the post state, and the events
(`on_pop` then `notify_one`) performed. -/
def AsyncQueue.pop (s : AsyncQueue T) :
    Option (Option T × AsyncQueue T × List (Event T)) :=
  if s.queue_.isEmpty = false ∨ s.closed_ = true then
    match s.queue_ with
    | [] => some (none, s, [])
    | item :: rest =>
      some (some item, { s with queue_ := rest },
            [Event.onPop item, Event.notifyOne])
  else
    none

/-- `std::optional<T> try_pop(timeout)` at a serialization point with no
intervening operation: when the wait predicate is false the `wait_for`
expires and returns `nullopt`; otherwise the body is that of `pop`. -/
def AsyncQueue.try_pop (s : AsyncQueue T) :
    Option T × AsyncQueue T × List (Event T) :=
  if ¬ (s.queue_.isEmpty = false ∨ s.closed_ = true) then
    (none, s, [])
  else
    match s.queue_ with
    | [] => (none, s, [])
    | item :: rest =>
      (some item, { s with queue_ := rest },
       [Event.onPop item, Event.notifyOne])

/-- `void close()`: sets `closed_`, invokes `on_close`, then
`notify_all`.  Never blocks. -/
def AsyncQueue.close (s : AsyncQueue T) : AsyncQueue T × List (Event T) :=
  ({ s with closed_ := true }, [Event.onClose, Event.notifyAll])

/-- The move constructor `AsyncQueue(AsyncQueue&& other)`: the new object
takes `other`'s capacity, queue contents and closed flag; `other`'s
`std::queue` is left empty by the move (its flag is only read).  Returns
(new object, moved-from source). -/
def AsyncQueue.moveConstruct (source : AsyncQueue T) :
    AsyncQueue T × AsyncQueue T :=
  (⟨source.queue_, source.closed_, source.capacity_⟩,
   { source with queue_ := [] })

/-- `operator=(AsyncQueue&& other)` for distinct objects (self-assignment
is a no-op by the `this != &other` guard).  On capacity mismatch a
`std::runtime_error` is thrown before anything is locked or mutated, so
both objects are returned unchanged next to the error; otherwise the
target takes the source's queue and closed flag and the source's
`std::queue` is left empty. -/
def AsyncQueue.moveAssign (target source : AsyncQueue T) :
    Except String Unit × AsyncQueue T × AsyncQueue T :=
  if target.capacity_ ≠ source.capacity_ then
    (Except.error "Cannot move-assign queues with different capacities",
     target, source)
  else
    (Except.ok (),
     { target with queue_ := source.queue_, closed_ := source.closed_ },
     { source with queue_ := [] })

/-- `bool is_closed() const`. -/
def AsyncQueue.is_closed (s : AsyncQueue T) : Bool := s.closed_

/-- `bool empty() const`. -/
def AsyncQueue.empty (s : AsyncQueue T) : Bool := s.queue_.isEmpty

/-- `size_t size() const`. -/
def AsyncQueue.size (s : AsyncQueue T) : Nat := s.queue_.length

/-- `size_t capacity() const`. -/
def AsyncQueue.capacity (s : AsyncQueue T) : Nat := s.capacity_

/-- A sequence of `push` calls, each required to complete and return
`true`; `none` if any call blocks or returns `false`. -/
def AsyncQueue.pushAll (s : AsyncQueue T) : List T → Option (AsyncQueue T)
  | [] => some s
  | e :: rest =>
    match s.push e with
    | some (true, s', _) => s'.pushAll rest
    | _ => none

/-- `n` consecutive `pop` calls, each required to complete and return an
item; yields the items in return order and the final state. -/
def AsyncQueue.popAll (s : AsyncQueue T) : Nat → Option (List T × AsyncQueue T)
  | 0 => some ([], s)
  | Nat.succ n =>
    match s.pop with
    | some (some x, s', _) =>
      Option.map (fun p => (x :: p.1, p.2)) (s'.popAll n)
    | _ => none

/-- `n` consecutive `close()` calls; yields the final state and the
concatenated events of all calls, in program order. -/
def AsyncQueue.closeN (s : AsyncQueue T) : Nat → AsyncQueue T × List (Event T)
  | 0 => (s, [])
  | Nat.succ n =>
    let c := s.close
    let r := c.1.closeN n
    (r.1, c.2 ++ r.2)

/-- The items of an event log that were inserted (hook `on_push` fires
exactly when an insertion happened), in insertion order. -/
def pushedItems (log : List (Event T)) : List T :=
  log.filterMap fun e =>
    match e with
    | Event.onPush x => some x
    | _ => none

/-- The items of an event log that were removed and returned to a caller
(hook `on_pop` fires exactly when a removal happened), in return
order. -/
def poppedItems (log : List (Event T)) : List T :=
  log.filterMap fun e =>
    match e with
    | Event.onPop x => some x
    | _ => none

/-- States of one queue object reachable from a freshly constructed queue
by completed public operations, including receiving a move assignment
from (or being the source of a move into) another reachable queue, and
move construction. -/
inductive Reachable {T : Type} : AsyncQueue T → Prop where
  | init (c : Nat) : Reachable (AsyncQueue.new T c)
  | push_step {s : AsyncQueue T} (x : T) {b : Bool} {s' : AsyncQueue T}
      {ev : List (Event T)} : Reachable s →
      s.push x = some (b, s', ev) → Reachable s'
  | try_push_step {s : AsyncQueue T} (x : T) {b : Bool} {s' : AsyncQueue T}
      {ev : List (Event T)} : Reachable s →
      s.try_push x = (b, s', ev) → Reachable s'
  | pop_step {s : AsyncQueue T} {r : Option T} {s' : AsyncQueue T}
      {ev : List (Event T)} : Reachable s →
      s.pop = some (r, s', ev) → Reachable s'
  | try_pop_step {s : AsyncQueue T} {r : Option T} {s' : AsyncQueue T}
      {ev : List (Event T)} : Reachable s →
      s.try_pop = (r, s', ev) → Reachable s'
  | close_step {s : AsyncQueue T} : Reachable s → Reachable s.close.1
  | move_assign_target {t s : AsyncQueue T} : Reachable t → Reachable s →
      Reachable (t.moveAssign s).2.1
  | move_assign_source {t s : AsyncQueue T} : Reachable t → Reachable s →
      Reachable (t.moveAssign s).2.2
  | move_construct_new {s : AsyncQueue T} : Reachable s →
      Reachable s.moveConstruct.1
  | move_construct_source {s : AsyncQueue T} : Reachable s →
      Reachable s.moveConstruct.2

/-- States of one queue object, together with the cumulative log of hook
and notification events, reachable from a freshly constructed queue by
completed `push`/`try_push`/`pop`/`try_pop`/`close` calls (no move
operations). -/
inductive TraceReachable {T : Type} : AsyncQueue T → List (Event T) → Prop where
  | init (c : Nat) : TraceReachable (AsyncQueue.new T c) []
  | push_step {s : AsyncQueue T} (x : T) {b : Bool} {s' : AsyncQueue T}
      {ev log : List (Event T)} : TraceReachable s log →
      s.push x = some (b, s', ev) → TraceReachable s' (log ++ ev)
  | try_push_step {s : AsyncQueue T} (x : T) {b : Bool} {s' : AsyncQueue T}
      {ev log : List (Event T)} : TraceReachable s log →
      s.try_push x = (b, s', ev) → TraceReachable s' (log ++ ev)
  | pop_step {s : AsyncQueue T} {r : Option T} {s' : AsyncQueue T}
      {ev log : List (Event T)} : TraceReachable s log →
      s.pop = some (r, s', ev) → TraceReachable s' (log ++ ev)
  | try_pop_step {s : AsyncQueue T} {r : Option T} {s' : AsyncQueue T}
      {ev log : List (Event T)} : TraceReachable s log →
      s.try_pop = (r, s', ev) → TraceReachable s' (log ++ ev)
  | close_step {s : AsyncQueue T} {log : List (Event T)} :
      TraceReachable s log → TraceReachable s.close.1 (log ++ s.close.2)

/-- `true` exactly on the `on_close` hook event. -/
def isOnClose : Event T → Bool
  | Event.onClose => true
  | _ => false

/-- Inversion for `push`: the three possible outcomes at a serialization
point — immediate rejection on a closed queue, insertion at the tail
when space is available, or blocking on a full open queue. -/
theorem AsyncQueue.push_cases (s : AsyncQueue T) (x : T) :
    (s.closed_ = true ∧ s.push x = some (false, s, [])) ∨
    (s.closed_ = false ∧ s.queue_.length < s.capacity_ ∧
      s.push x = some (true, { s with queue_ := s.queue_ ++ [x] },
        [Event.onPush x, Event.notifyOne])) ∨
    (s.closed_ = false ∧ ¬ s.queue_.length < s.capacity_ ∧ s.push x = none) := by
  by_cases h1 : s.closed_ = true
  · exact Or.inl ⟨h1, by simp [AsyncQueue.push, h1]⟩
  · have h1' : s.closed_ = false := by simpa using h1
    by_cases h2 : s.queue_.length < s.capacity_
    · exact Or.inr (Or.inl ⟨h1', h2, by simp [AsyncQueue.push, h1', h2]⟩)
    · exact Or.inr (Or.inr ⟨h1', h2, by simp [AsyncQueue.push, h1', h2]⟩)

/-- Inversion for `try_push`: rejection on a closed queue, insertion when
space is available, or timeout expiry on a full open queue. -/
theorem AsyncQueue.try_push_cases (s : AsyncQueue T) (x : T) :
    (s.closed_ = true ∧ s.try_push x = (false, s, [])) ∨
    (s.closed_ = false ∧ s.queue_.length < s.capacity_ ∧
      s.try_push x = (true, { s with queue_ := s.queue_ ++ [x] },
        [Event.onPush x, Event.notifyOne])) ∨
    (s.closed_ = false ∧ ¬ s.queue_.length < s.capacity_ ∧
      s.try_push x = (false, s, [])) := by
  by_cases h1 : s.closed_ = true
  · exact Or.inl ⟨h1, by simp [AsyncQueue.try_push, h1]⟩
  · have h1' : s.closed_ = false := by simpa using h1
    by_cases h2 : s.queue_.length < s.capacity_
    · exact Or.inr (Or.inl ⟨h1', h2, by simp [AsyncQueue.try_push, h1', h2]⟩)
    · exact Or.inr (Or.inr ⟨h1', h2, by simp [AsyncQueue.try_push, h1', h2]⟩)

/-- Inversion for `pop`: empty-and-closed yields `nullopt`, a non-empty
queue yields its front, an empty open queue blocks. -/
theorem AsyncQueue.pop_cases (s : AsyncQueue T) :
    (s.queue_ = [] ∧ s.closed_ = true ∧ s.pop = some (none, s, [])) ∨
    (∃ x rest, s.queue_ = x :: rest ∧
      s.pop = some (some x, { s with queue_ := rest },
        [Event.onPop x, Event.notifyOne])) ∨
    (s.queue_ = [] ∧ s.closed_ = false ∧ s.pop = none) := by
  rcases hq : s.queue_ with _ | ⟨x, rest⟩
  · by_cases h1 : s.closed_ = true
    · exact Or.inl ⟨rfl, h1, by simp [AsyncQueue.pop, hq, h1]⟩
    · have h1' : s.closed_ = false := by simpa using h1
      exact Or.inr (Or.inr ⟨rfl, h1', by simp [AsyncQueue.pop, hq, h1']⟩)
  · exact Or.inr (Or.inl ⟨x, rest, rfl, by simp [AsyncQueue.pop, hq]⟩)

/-- Inversion for `try_pop`: empty-and-closed yields `nullopt`, a
non-empty queue yields its front, an empty open queue times out with no
mutation. -/
theorem AsyncQueue.try_pop_cases (s : AsyncQueue T) :
    (s.queue_ = [] ∧ s.closed_ = true ∧ s.try_pop = (none, s, [])) ∨
    (∃ x rest, s.queue_ = x :: rest ∧
      s.try_pop = (some x, { s with queue_ := rest },
        [Event.onPop x, Event.notifyOne])) ∨
    (s.queue_ = [] ∧ s.closed_ = false ∧ s.try_pop = (none, s, [])) := by
  rcases hq : s.queue_ with _ | ⟨x, rest⟩
  · by_cases h1 : s.closed_ = true
    · exact Or.inl ⟨rfl, h1, by simp [AsyncQueue.try_pop, hq, h1]⟩
    · have h1' : s.closed_ = false := by simpa using h1
      exact Or.inr (Or.inr ⟨rfl, h1', by simp [AsyncQueue.try_pop, hq, h1']⟩)
  · exact Or.inr (Or.inl ⟨x, rest, rfl, by simp [AsyncQueue.try_pop, hq]⟩)

/-- C3: on a queue whose closed flag is set, `push` and `try_push` (any
item, any timeout) return `false` immediately, leave the buffered items
(indeed the whole state) unchanged, and invoke no hook. -/
theorem AsyncQueue.closed_push_rejected (s : AsyncQueue T) (x : T)
    (h : s.closed_ = true) :
    s.push x = some (false, s, []) ∧ s.try_push x = (false, s, []) := by
  exact ⟨by simp [AsyncQueue.push, h], by simp [AsyncQueue.try_push, h]⟩

/-- Witness for C3 at a concrete closed queue. -/
theorem AsyncQueue.closed_push_rejected_witness :
    (⟨[], true, 1⟩ : AsyncQueue Nat).closed_ = true ∧
    (⟨[], true, 1⟩ : AsyncQueue Nat).push 0 = some (false, ⟨[], true, 1⟩, []) ∧
    (⟨[], true, 1⟩ : AsyncQueue Nat).try_push 0 = (false, ⟨[], true, 1⟩, []) :=
  ⟨by decide, AsyncQueue.closed_push_rejected ⟨[], true, 1⟩ 0 (by decide)⟩

/-- C6: move-assignment between queues of different capacities throws
`std::runtime_error` before acquiring any lock or moving any state, so
the error is reported and both objects are exactly as they were. -/
theorem AsyncQueue.moveAssign_capacity_mismatch (t s : AsyncQueue T)
    (h : t.capacity_ ≠ s.capacity_) :
    t.moveAssign s =
      (Except.error "Cannot move-assign queues with different capacities",
       t, s) := by
  simp [AsyncQueue.moveAssign, h]

/-- Witness for C6 at concrete capacities 1 and 2. -/
theorem AsyncQueue.moveAssign_capacity_mismatch_witness :
    (AsyncQueue.new Nat 1).capacity_ ≠ (AsyncQueue.new Nat 2).capacity_ ∧
    (AsyncQueue.new Nat 1).moveAssign (AsyncQueue.new Nat 2) =
      (Except.error "Cannot move-assign queues with different capacities",
       AsyncQueue.new Nat 1, AsyncQueue.new Nat 2) :=
  ⟨by decide,
   AsyncQueue.moveAssign_capacity_mismatch (AsyncQueue.new Nat 1)
     (AsyncQueue.new Nat 2) (by decide)⟩

/-- C7: a `try_push` that returns `false` and a `try_pop` that returns
`nullopt` — in particular every timeout expiry — leave the queue state
(items and closed flag) exactly as it was: a failed timed call performs
no mutation. -/
theorem AsyncQueue.timed_fail_no_mutation (s : AsyncQueue T) (x : T) :
    ((s.try_push x).1 = false → (s.try_push x).2.1 = s) ∧
    (s.try_pop.1 = none → s.try_pop.2.1 = s) := by
  constructor
  · intro h
    rcases AsyncQueue.try_push_cases s x with ⟨_, heq⟩ | ⟨_, _, heq⟩ | ⟨_, _, heq⟩ <;>
      rw [heq] at h ⊢ <;> simp_all
  · intro h
    rcases AsyncQueue.try_pop_cases s with ⟨_, _, heq⟩ | ⟨y, rest, _, heq⟩ | ⟨_, _, heq⟩ <;>
      rw [heq] at h ⊢ <;> simp_all

/-- Witness for C7: a full open queue times out on `try_push`, an empty
open queue times out on `try_pop`, both unchanged. -/
theorem AsyncQueue.timed_fail_no_mutation_witness :
    ((⟨[5], false, 1⟩ : AsyncQueue Nat).try_push 7).2.1 = ⟨[5], false, 1⟩ ∧
    (⟨[], false, 1⟩ : AsyncQueue Nat).try_pop.2.1 = ⟨[], false, 1⟩ :=
  ⟨(AsyncQueue.timed_fail_no_mutation ⟨[5], false, 1⟩ 7).1 (by decide),
   (AsyncQueue.timed_fail_no_mutation ⟨[], false, 1⟩ 7).2 (by decide)⟩

/-- C10: when `push` or `try_push` returns `true`, the new item is at the
tail, the length grew by exactly one, and the closed flag, the capacity,
and every previously buffered item and their order are unchanged. -/
theorem AsyncQueue.push_success_frame (s : AsyncQueue T) (x : T) :
    (∀ s' ev, s.push x = some (true, s', ev) →
      s'.queue_ = s.queue_ ++ [x] ∧ s'.queue_.length = s.queue_.length + 1 ∧
      s'.closed_ = s.closed_ ∧ s'.capacity_ = s.capacity_) ∧
    (∀ s' ev, s.try_push x = (true, s', ev) →
      s'.queue_ = s.queue_ ++ [x] ∧ s'.queue_.length = s.queue_.length + 1 ∧
      s'.closed_ = s.closed_ ∧ s'.capacity_ = s.capacity_) := by
  constructor
  · intro s' ev h
    rcases AsyncQueue.push_cases s x with ⟨_, heq⟩ | ⟨hc, _, heq⟩ | ⟨_, _, heq⟩ <;>
      rw [heq] at h
    · simp at h
    · simp only [Option.some.injEq, Prod.mk.injEq, true_and] at h
      obtain ⟨rfl, rfl⟩ := h
      simp [hc]
    · simp at h
  · intro s' ev h
    rcases AsyncQueue.try_push_cases s x with ⟨_, heq⟩ | ⟨hc, _, heq⟩ | ⟨_, _, heq⟩ <;>
      rw [heq] at h
    · simp at h
    · simp only [Prod.mk.injEq, true_and] at h
      obtain ⟨rfl, rfl⟩ := h
      simp [hc]
    · simp at h

/-- Witness for C10 at a concrete open queue with room. -/
theorem AsyncQueue.push_success_frame_witness :
    ((⟨[3], false, 2⟩ : AsyncQueue Nat).push 7 =
        some (true, ⟨[3, 7], false, 2⟩, [Event.onPush 7, Event.notifyOne])) ∧
    ((⟨[3, 7], false, 2⟩ : AsyncQueue Nat).queue_ = [3] ++ [7] ∧
      (⟨[3, 7], false, 2⟩ : AsyncQueue Nat).queue_.length =
        (⟨[3], false, 2⟩ : AsyncQueue Nat).queue_.length + 1 ∧
      (⟨[3, 7], false, 2⟩ : AsyncQueue Nat).closed_ =
        (⟨[3], false, 2⟩ : AsyncQueue Nat).closed_ ∧
      (⟨[3, 7], false, 2⟩ : AsyncQueue Nat).capacity_ =
        (⟨[3], false, 2⟩ : AsyncQueue Nat).capacity_) :=
  ⟨by decide,
   (AsyncQueue.push_success_frame ⟨[3], false, 2⟩ 7).1 ⟨[3, 7], false, 2⟩
     [Event.onPush 7, Event.notifyOne] (by decide)⟩

/-- A run of successful pushes onto an open queue with enough room
appends the pushed items, in order, at the tail. -/
theorem AsyncQueue.pushAll_open (c : Nat) (es : List T) :
    ∀ q : List T, q.length + es.length ≤ c →
      (⟨q, false, c⟩ : AsyncQueue T).pushAll es = some ⟨q ++ es, false, c⟩ := by
  induction es with
  | nil => intro q _; simp [AsyncQueue.pushAll]
  | cons e rest ih =>
    intro q h
    have hlt : q.length < c := by simp only [List.length_cons] at h; omega
    have hpush : (⟨q, false, c⟩ : AsyncQueue T).push e =
        some (true, ⟨q ++ [e], false, c⟩, [Event.onPush e, Event.notifyOne]) := by
      simp [AsyncQueue.push, hlt]
    have ih' := ih (q ++ [e])
      (by simp only [List.length_append, List.length_cons, List.length_nil] at h ⊢; omega)
    simp only [AsyncQueue.pushAll, hpush, ih']
    simp

/-- Popping a queue as many times as it holds items returns exactly those
items, front first, and leaves the queue empty; the closed flag does not
matter to draining. -/
theorem AsyncQueue.popAll_exact (b : Bool) (c : Nat) (es : List T) :
    (⟨es, b, c⟩ : AsyncQueue T).popAll es.length = some (es, ⟨[], b, c⟩) := by
  induction es with
  | nil => simp [AsyncQueue.popAll]
  | cons x rest ih => simp [AsyncQueue.popAll, AsyncQueue.pop, ih]

/-- C1: starting from a fresh queue whose capacity admits all of
`e1, ..., en`, the `n` pushes all succeed, buffering `e1, ..., en` in
order, and the following `n` pops return exactly `e1, ..., en` in that
order: dequeue order equals enqueue order. -/
theorem AsyncQueue.fifo_order (es : List T) (c : Nat) (h : es.length ≤ c) :
    (AsyncQueue.new T c).pushAll es = some ⟨es, false, c⟩ ∧
    (⟨es, false, c⟩ : AsyncQueue T).popAll es.length =
      some (es, ⟨[], false, c⟩) := by
  refine ⟨?_, AsyncQueue.popAll_exact false c es⟩
  have := AsyncQueue.pushAll_open c es [] (by simpa using h)
  simpa [AsyncQueue.new] using this

/-- Witness for C1: three pushes then three pops on a fresh capacity-5
queue. -/
theorem AsyncQueue.fifo_order_witness :
    ([1, 2, 3] : List Nat).length ≤ 5 ∧
    ((AsyncQueue.new Nat 5).pushAll [1, 2, 3] = some ⟨[1, 2, 3], false, 5⟩ ∧
      (⟨[1, 2, 3], false, 5⟩ : AsyncQueue Nat).popAll 3 =
        some ([1, 2, 3], ⟨[], false, 5⟩)) :=
  ⟨by decide, AsyncQueue.fifo_order [1, 2, 3] 5 (by decide)⟩

/-- C4: on a closed queue, popping as many times as there are buffered
items returns them all in FIFO order; `try_pop` returns exactly what
`pop` returns; once empty, `pop` and `try_pop` return `nullopt` and
leave the state unchanged — hence `nullopt` on every subsequent call —
and `pop` on a closed queue never blocks. -/
theorem AsyncQueue.closed_drain (s : AsyncQueue T) (h : s.closed_ = true) :
    s.popAll s.queue_.length = some (s.queue_, ⟨[], true, s.capacity_⟩) ∧
    s.pop = some s.try_pop ∧
    (⟨[], true, s.capacity_⟩ : AsyncQueue T).pop =
      some (none, ⟨[], true, s.capacity_⟩, []) ∧
    (⟨[], true, s.capacity_⟩ : AsyncQueue T).try_pop =
      (none, ⟨[], true, s.capacity_⟩, []) ∧
    s.pop ≠ none := by
  obtain ⟨q, b, cap⟩ := s
  dsimp only at h
  subst h
  refine ⟨AsyncQueue.popAll_exact true cap q, ?_, ?_, ?_, ?_⟩
  · cases q <;> simp [AsyncQueue.pop, AsyncQueue.try_pop]
  · simp [AsyncQueue.pop]
  · simp [AsyncQueue.try_pop]
  · cases q <;> simp [AsyncQueue.pop]

/-- Witness for C4 at a concrete closed queue holding one item. -/
theorem AsyncQueue.closed_drain_witness :
    (⟨[7], true, 3⟩ : AsyncQueue Nat).closed_ = true ∧
    ((⟨[7], true, 3⟩ : AsyncQueue Nat).popAll 1 =
        some ([7], ⟨[], true, 3⟩) ∧
      (⟨[7], true, 3⟩ : AsyncQueue Nat).pop =
        some (⟨[7], true, 3⟩ : AsyncQueue Nat).try_pop ∧
      (⟨[], true, 3⟩ : AsyncQueue Nat).pop =
        some (none, ⟨[], true, 3⟩, []) ∧
      (⟨[], true, 3⟩ : AsyncQueue Nat).try_pop =
        (none, ⟨[], true, 3⟩, []) ∧
      (⟨[7], true, 3⟩ : AsyncQueue Nat).pop ≠ none) :=
  ⟨by decide, AsyncQueue.closed_drain ⟨[7], true, 3⟩ (by decide)⟩

/-- The events of `n` consecutive `close()` calls: each call contributes
exactly `on_close` followed by `notify_all`. -/
theorem AsyncQueue.closeN_events (s : AsyncQueue T) (n : Nat) :
    (s.closeN n).2 =
      (List.replicate n
        ([Event.onClose, Event.notifyAll] : List (Event T))).flatten := by
  induction n generalizing s with
  | zero => simp [AsyncQueue.closeN]
  | succ n ih =>
    simp [AsyncQueue.closeN, AsyncQueue.close, List.replicate_succ, ih]

/-- Counting `on_close` events over the event trace of `n` close
calls. -/
theorem countP_onClose_replicate (n : Nat) :
    ((List.replicate n
        ([Event.onClose, Event.notifyAll] : List (Event T))).flatten.countP
      fun e => isOnClose e) = n := by
  induction n with
  | zero => simp
  | succ n ih =>
    simp [List.replicate_succ, List.countP_cons, isOnClose, ih]

/-- C9: `N` calls to `close()` — redundant calls on an already-closed
queue included, since `close()` re-checks nothing — produce the event
trace `on_close, notify_all` repeated `N` times, so the `on_close` hook
fires exactly `N` times and each firing precedes the `notify_all` that
releases the waiters of that call. -/
theorem AsyncQueue.on_close_per_call (s : AsyncQueue T) (n : Nat) :
    (s.closeN n).2 =
      (List.replicate n
        ([Event.onClose, Event.notifyAll] : List (Event T))).flatten ∧
    ((s.closeN n).2.countP fun e => isOnClose e) = n :=
  ⟨AsyncQueue.closeN_events s n, by
    rw [AsyncQueue.closeN_events]
    exact countP_onClose_replicate n⟩

/-- A completing `push` preserves the capacity bound. -/
theorem AsyncQueue.push_bound {s s' : AsyncQueue T} {x : T} {b : Bool}
    {ev : List (Event T)} (heq : s.push x = some (b, s', ev))
    (h : s.queue_.length ≤ s.capacity_) :
    s'.queue_.length ≤ s'.capacity_ := by
  rcases AsyncQueue.push_cases s x with ⟨_, e⟩ | ⟨_, hlt, e⟩ | ⟨_, _, e⟩ <;>
    rw [e] at heq
  · simp only [Option.some.injEq, Prod.mk.injEq] at heq
    obtain ⟨_, rfl, _⟩ := heq
    exact h
  · simp only [Option.some.injEq, Prod.mk.injEq] at heq
    obtain ⟨_, rfl, _⟩ := heq
    simpa using hlt
  · simp at heq

/-- A completing `try_push` preserves the capacity bound. -/
theorem AsyncQueue.try_push_bound {s s' : AsyncQueue T} {x : T} {b : Bool}
    {ev : List (Event T)} (heq : s.try_push x = (b, s', ev))
    (h : s.queue_.length ≤ s.capacity_) :
    s'.queue_.length ≤ s'.capacity_ := by
  rcases AsyncQueue.try_push_cases s x with ⟨_, e⟩ | ⟨_, hlt, e⟩ | ⟨_, _, e⟩ <;>
    rw [e] at heq
  · simp only [Prod.mk.injEq] at heq
    obtain ⟨_, rfl, _⟩ := heq
    exact h
  · simp only [Prod.mk.injEq] at heq
    obtain ⟨_, rfl, _⟩ := heq
    simpa using hlt
  · simp only [Prod.mk.injEq] at heq
    obtain ⟨_, rfl, _⟩ := heq
    exact h

/-- A completing `pop` preserves the capacity bound. -/
theorem AsyncQueue.pop_bound {s s' : AsyncQueue T} {r : Option T}
    {ev : List (Event T)} (heq : s.pop = some (r, s', ev))
    (h : s.queue_.length ≤ s.capacity_) :
    s'.queue_.length ≤ s'.capacity_ := by
  rcases AsyncQueue.pop_cases s with ⟨_, _, e⟩ | ⟨y, rest, hq, e⟩ | ⟨_, _, e⟩ <;>
    rw [e] at heq
  · simp only [Option.some.injEq, Prod.mk.injEq] at heq
    obtain ⟨_, rfl, _⟩ := heq
    exact h
  · simp only [Option.some.injEq, Prod.mk.injEq] at heq
    obtain ⟨_, rfl, _⟩ := heq
    simp only [hq, List.length_cons] at h
    simpa using Nat.le_of_succ_le h
  · simp at heq

/-- A completing `try_pop` preserves the capacity bound. -/
theorem AsyncQueue.try_pop_bound {s s' : AsyncQueue T} {r : Option T}
    {ev : List (Event T)} (heq : s.try_pop = (r, s', ev))
    (h : s.queue_.length ≤ s.capacity_) :
    s'.queue_.length ≤ s'.capacity_ := by
  rcases AsyncQueue.try_pop_cases s with ⟨_, _, e⟩ | ⟨y, rest, hq, e⟩ | ⟨_, _, e⟩ <;>
    rw [e] at heq
  · simp only [Prod.mk.injEq] at heq
    obtain ⟨_, rfl, _⟩ := heq
    exact h
  · simp only [Prod.mk.injEq] at heq
    obtain ⟨_, rfl, _⟩ := heq
    simp only [hq, List.length_cons] at h
    simpa using Nat.le_of_succ_le h
  · simp only [Prod.mk.injEq] at heq
    obtain ⟨_, rfl, _⟩ := heq
    exact h

/-- C2: in every state reachable from a fresh queue by completed public
operations (push, try_push, pop, try_pop, close, move construction, move
assignment), the number of buffered items is at most the capacity (it is
a `Nat`, so `0 <=` holds by type); in particular neither `push` nor
`try_push` reports an insertion when the queue is full. -/
theorem AsyncQueue.capacity_bound (s : AsyncQueue T) (h : Reachable s) :
    s.queue_.length ≤ s.capacity_ ∧
    ∀ x : T, s.queue_.length = s.capacity_ →
      Option.map (fun r => r.1) (s.push x) ≠ some true ∧
      (s.try_push x).1 = false := by
  constructor
  · induction h with
    | init c => simp [AsyncQueue.new]
    | push_step x a heq ih => exact AsyncQueue.push_bound heq ih
    | try_push_step x a heq ih => exact AsyncQueue.try_push_bound heq ih
    | pop_step a heq ih => exact AsyncQueue.pop_bound heq ih
    | try_pop_step a heq ih => exact AsyncQueue.try_pop_bound heq ih
    | close_step a ih => simpa [AsyncQueue.close] using ih
    | move_assign_target ht hs iht ihs =>
      rename_i t u
      by_cases hc : t.capacity_ = u.capacity_
      · simpa [AsyncQueue.moveAssign, hc] using ihs
      · simpa [AsyncQueue.moveAssign, hc] using iht
    | move_assign_source ht hs iht ihs =>
      rename_i t u
      by_cases hc : t.capacity_ = u.capacity_
      · simp [AsyncQueue.moveAssign, hc]
      · simpa [AsyncQueue.moveAssign, hc] using ihs
    | move_construct_new a ih => simpa [AsyncQueue.moveConstruct] using ih
    | move_construct_source a ih => simp [AsyncQueue.moveConstruct]
  · intro x hfull
    constructor
    · rcases AsyncQueue.push_cases s x with ⟨_, e⟩ | ⟨_, hlt, e⟩ | ⟨_, _, e⟩
      · rw [e]; simp
      · exact absurd hlt (by omega)
      · rw [e]; simp
    · rcases AsyncQueue.try_push_cases s x with ⟨_, e⟩ | ⟨_, hlt, e⟩ | ⟨_, _, e⟩
      · rw [e]
      · exact absurd hlt (by omega)
      · rw [e]

/-- Witness for C2 at the freshly constructed capacity-2 queue. -/
theorem AsyncQueue.capacity_bound_witness :
    (AsyncQueue.new Nat 2).queue_.length ≤ (AsyncQueue.new Nat 2).capacity_ ∧
    ∀ x : Nat,
      (AsyncQueue.new Nat 2).queue_.length = (AsyncQueue.new Nat 2).capacity_ →
        Option.map (fun r => r.1) ((AsyncQueue.new Nat 2).push x) ≠ some true ∧
        ((AsyncQueue.new Nat 2).try_push x).1 = false :=
  AsyncQueue.capacity_bound (AsyncQueue.new Nat 2) (Reachable.init 2)

/-- Counterexample to C5 as stated: move assignment is a public operation
that does make a closed queue's flag false again.  Both queues are
reachable (the target via `close()` on a fresh queue); the target's
closed flag is `true` before the assignment, the assignment succeeds
(equal capacities), and afterwards the target's closed flag is `false`,
copied from the open source. -/
theorem AsyncQueue.closed_monotone_counterexample :
    Reachable (⟨[], true, 1⟩ : AsyncQueue Nat) ∧
    Reachable (⟨[], false, 1⟩ : AsyncQueue Nat) ∧
    (⟨[], true, 1⟩ : AsyncQueue Nat).closed_ = true ∧
    ((⟨[], true, 1⟩ : AsyncQueue Nat).moveAssign ⟨[], false, 1⟩).1 =
      Except.ok () ∧
    ((⟨[], true, 1⟩ : AsyncQueue Nat).moveAssign ⟨[], false, 1⟩).2.1.closed_ =
      false := by
  refine ⟨Reachable.close_step (Reachable.init 1), Reachable.init 1, rfl,
    ?_, ?_⟩ <;> simp [AsyncQueue.moveAssign]

/-- C5 amended: the closed flag is monotonic under every public operation
except move assignment — `push`, `try_push`, `pop`, `try_pop`, `close`
never clear it, move construction gives the new object the source's flag
and leaves the source's flag in place — while move assignment overwrites
the target's flag with the source's, so it preserves closedness exactly
when the source is closed. -/
theorem AsyncQueue.closed_monotone_amended (s t : AsyncQueue T) (x : T)
    (h : s.closed_ = true) :
    (∀ b s' ev, s.push x = some (b, s', ev) → s'.closed_ = true) ∧
    (s.try_push x).2.1.closed_ = true ∧
    (∀ r s' ev, s.pop = some (r, s', ev) → s'.closed_ = true) ∧
    s.try_pop.2.1.closed_ = true ∧
    s.close.1.closed_ = true ∧
    s.moveConstruct.1.closed_ = true ∧
    s.moveConstruct.2.closed_ = true ∧
    (t.closed_ = true →
      (s.moveAssign t).2.1.closed_ = true ∧
      (s.moveAssign t).2.2.closed_ = true) := by
  refine ⟨?_, ?_, ?_, ?_, by simp [AsyncQueue.close],
    by simp [AsyncQueue.moveConstruct, h],
    by simp [AsyncQueue.moveConstruct, h], ?_⟩
  · intro b s' ev heq
    rcases AsyncQueue.push_cases s x with ⟨_, e⟩ | ⟨hc, _, _⟩ | ⟨hc, _, _⟩
    · rw [e] at heq
      simp only [Option.some.injEq, Prod.mk.injEq] at heq
      obtain ⟨_, rfl, _⟩ := heq
      exact h
    · rw [hc] at h; exact absurd h (by simp)
    · rw [hc] at h; exact absurd h (by simp)
  · rcases AsyncQueue.try_push_cases s x with ⟨_, e⟩ | ⟨hc, _, _⟩ | ⟨_, _, e⟩ <;>
      first
      | rw [e]; exact h
      | rw [hc] at h; exact absurd h (by simp)
  · intro r s' ev heq
    rcases AsyncQueue.pop_cases s with ⟨_, _, e⟩ | ⟨y, rest, hq, e⟩ | ⟨_, hc, _⟩
    · rw [e] at heq
      simp only [Option.some.injEq, Prod.mk.injEq] at heq
      obtain ⟨_, rfl, _⟩ := heq
      exact h
    · rw [e] at heq
      simp only [Option.some.injEq, Prod.mk.injEq] at heq
      obtain ⟨_, rfl, _⟩ := heq
      simpa using h
    · rw [hc] at h; exact absurd h (by simp)
  · rcases AsyncQueue.try_pop_cases s with ⟨_, _, e⟩ | ⟨y, rest, hq, e⟩ | ⟨_, hc, _⟩
    · rw [e]; exact h
    · rw [e]; simpa using h
    · rw [hc] at h; exact absurd h (by simp)
  · intro ht
    by_cases hc : s.capacity_ = t.capacity_ <;>
      simp [AsyncQueue.moveAssign, hc, h, ht]

/-- Witness for C5 amended at a concrete closed queue (and a closed
peer for the move-assignment conjunct). -/
theorem AsyncQueue.closed_monotone_amended_witness :
    (⟨[4], true, 2⟩ : AsyncQueue Nat).closed_ = true ∧
    ((∀ b s' ev, (⟨[4], true, 2⟩ : AsyncQueue Nat).push 9 = some (b, s', ev) →
        s'.closed_ = true) ∧
      ((⟨[4], true, 2⟩ : AsyncQueue Nat).try_push 9).2.1.closed_ = true ∧
      (∀ r s' ev, (⟨[4], true, 2⟩ : AsyncQueue Nat).pop = some (r, s', ev) →
        s'.closed_ = true) ∧
      (⟨[4], true, 2⟩ : AsyncQueue Nat).try_pop.2.1.closed_ = true ∧
      (⟨[4], true, 2⟩ : AsyncQueue Nat).close.1.closed_ = true ∧
      (⟨[4], true, 2⟩ : AsyncQueue Nat).moveConstruct.1.closed_ = true ∧
      (⟨[4], true, 2⟩ : AsyncQueue Nat).moveConstruct.2.closed_ = true ∧
      ((⟨[], true, 2⟩ : AsyncQueue Nat).closed_ = true →
        ((⟨[4], true, 2⟩ : AsyncQueue Nat).moveAssign
            ⟨[], true, 2⟩).2.1.closed_ = true ∧
        ((⟨[4], true, 2⟩ : AsyncQueue Nat).moveAssign
            ⟨[], true, 2⟩).2.2.closed_ = true)) :=
  ⟨by decide,
   AsyncQueue.closed_monotone_amended ⟨[4], true, 2⟩ ⟨[], true, 2⟩ 9 (by decide)⟩

/-- Counterexample to C8 as stated: move assignment between queues is a
public operation under which a successfully enqueued item is lost.
Item `1` is pushed successfully (the call returns `true`), and then the
queue holding it is move-assigned from an empty queue of equal capacity:
the assignment succeeds and item `1` is in neither resulting queue and
was never returned by any pop. -/
theorem AsyncQueue.conservation_counterexample :
    (⟨[], false, 2⟩ : AsyncQueue Nat).push 1 =
      some (true, ⟨[1], false, 2⟩, [Event.onPush 1, Event.notifyOne]) ∧
    (⟨[1], false, 2⟩ : AsyncQueue Nat).moveAssign ⟨[], false, 2⟩ =
      (Except.ok (), ⟨[], false, 2⟩, ⟨[], false, 2⟩) := by
  constructor
  · decide
  · simp [AsyncQueue.moveAssign]

/-- `pushedItems` distributes over trace concatenation. -/
theorem pushedItems_append (l1 l2 : List (Event T)) :
    pushedItems (l1 ++ l2) = pushedItems l1 ++ pushedItems l2 :=
  List.filterMap_append l1 l2 _

/-- `poppedItems` distributes over trace concatenation. -/
theorem poppedItems_append (l1 l2 : List (Event T)) :
    poppedItems (l1 ++ l2) = poppedItems l1 ++ poppedItems l2 :=
  List.filterMap_append l1 l2 _

/-- C8 amended: for every sequence of completed `push`/`try_push`/`pop`/
`try_pop`/`close` calls on one queue (no move assignment), the sequence
of successfully enqueued items equals the sequence of dequeued items
followed by the items still buffered: nothing is lost, nothing is
duplicated, and order is preserved.  Move assignment breaks this by
discarding the target's buffered items (see the counterexample). -/
theorem AsyncQueue.conservation_amended (s : AsyncQueue T)
    (log : List (Event T)) (h : TraceReachable s log) :
    pushedItems log = poppedItems log ++ s.queue_ := by
  induction h with
  | init c => simp [pushedItems, poppedItems, AsyncQueue.new]
  | push_step x a heq ih =>
    rename_i s b s' ev log
    rcases AsyncQueue.push_cases s x with ⟨_, e⟩ | ⟨_, _, e⟩ | ⟨_, _, e⟩ <;>
      rw [e] at heq
    · simp only [Option.some.injEq, Prod.mk.injEq] at heq
      obtain ⟨_, rfl, rfl⟩ := heq
      simpa using ih
    · simp only [Option.some.injEq, Prod.mk.injEq] at heq
      obtain ⟨_, rfl, rfl⟩ := heq
      simp only [pushedItems_append, poppedItems_append, ih]
      simp [pushedItems, poppedItems]
    · simp at heq
  | try_push_step x a heq ih =>
    rename_i s b s' ev log
    rcases AsyncQueue.try_push_cases s x with ⟨_, e⟩ | ⟨_, _, e⟩ | ⟨_, _, e⟩ <;>
      rw [e] at heq
    · simp only [Prod.mk.injEq] at heq
      obtain ⟨_, rfl, rfl⟩ := heq
      simpa using ih
    · simp only [Prod.mk.injEq] at heq
      obtain ⟨_, rfl, rfl⟩ := heq
      simp only [pushedItems_append, poppedItems_append, ih]
      simp [pushedItems, poppedItems]
    · simp only [Prod.mk.injEq] at heq
      obtain ⟨_, rfl, rfl⟩ := heq
      simpa using ih
  | pop_step a heq ih =>
    rename_i s r s' ev log
    rcases AsyncQueue.pop_cases s with ⟨_, _, e⟩ | ⟨y, rest, hq, e⟩ | ⟨_, _, e⟩ <;>
      rw [e] at heq
    · simp only [Option.some.injEq, Prod.mk.injEq] at heq
      obtain ⟨_, rfl, rfl⟩ := heq
      simpa using ih
    · simp only [Option.some.injEq, Prod.mk.injEq] at heq
      obtain ⟨_, rfl, rfl⟩ := heq
      simp only [pushedItems_append, poppedItems_append, ih, hq]
      simp [pushedItems, poppedItems]
    · simp at heq
  | try_pop_step a heq ih =>
    rename_i s r s' ev log
    rcases AsyncQueue.try_pop_cases s with ⟨_, _, e⟩ | ⟨y, rest, hq, e⟩ | ⟨_, _, e⟩ <;>
      rw [e] at heq
    · simp only [Prod.mk.injEq] at heq
      obtain ⟨_, rfl, rfl⟩ := heq
      simpa using ih
    · simp only [Prod.mk.injEq] at heq
      obtain ⟨_, rfl, rfl⟩ := heq
      simp only [pushedItems_append, poppedItems_append, ih, hq]
      simp [pushedItems, poppedItems]
    · simp only [Prod.mk.injEq] at heq
      obtain ⟨_, rfl, rfl⟩ := heq
      simpa using ih
  | close_step a ih =>
    simp only [AsyncQueue.close, pushedItems_append, poppedItems_append, ih]
    simp [pushedItems, poppedItems]

/-- Witness for C8 amended: a fresh capacity-3 queue after one
successful push of item 5. -/
theorem AsyncQueue.conservation_amended_witness :
    pushedItems (([] ++ [Event.onPush 5, Event.notifyOne]) : List (Event Nat)) =
      poppedItems (([] ++ [Event.onPush 5, Event.notifyOne]) : List (Event Nat)) ++
        (⟨[5], false, 3⟩ : AsyncQueue Nat).queue_ :=
  have heq : (AsyncQueue.new Nat 3).push 5 =
      some (true, ⟨[5], false, 3⟩, [Event.onPush 5, Event.notifyOne]) := by
    decide
  AsyncQueue.conservation_amended ⟨[5], false, 3⟩ _
    (TraceReachable.push_step 5 (TraceReachable.init 3) heq)
